import Mathlib

/-!
Shallow embedding of the AOCS control core of the 2024-CubeSat repository
(src/src/AOCS/aocs_control.py and src/src/AOCS/detumbling_control.py).
Angles, angular rates and PWM duty values are rationals; per-tick sensor
input, cooperative cancellation, vision observations and mid-tick exceptions
are supplied by an environment, and the unbounded while loops of the source
are run on explicit fuel (a `none` result means the loop has not yet
terminated within the given number of iterations).
-/

namespace AOCS

/-- Motor command as issued through set_motor_direction / set_motor_speed:
direction is 1 (forward), -1 (reverse) or 0 (stop); speed is the requested
PWM duty in percent. -/
structure MotorCmd where
  direction : Int
  speed : ℚ
deriving DecidableEq, Repr

/-- stop_motor: set_motor_direction(0) and set_motor_speed(0). -/
def stop_motor : MotorCmd := ⟨0, 0⟩

/-- Number of iterations taken by the loop `while angle > 180: angle -= 360`. -/
def downSteps (a : ℚ) : ℕ := (Int.ceil ((a - 180) / 360)).toNat

/-- Number of iterations taken by the loop `while angle < -180: angle += 360`. -/
def upSteps (a : ℚ) : ℕ := (Int.ceil ((-180 - a) / 360)).toNat

/-- Fuel-indexed unfolding of `while angle > 180: angle -= 360`. -/
def normDownF : ℕ → ℚ → ℚ
  | 0, a => a
  | n + 1, a => if 180 < a then normDownF n (a - 360) else a

/-- Fuel-indexed unfolding of `while angle < -180: angle += 360`. -/
def normUpF : ℕ → ℚ → ℚ
  | 0, a => a
  | n + 1, a => if a < -180 then normUpF n (a + 360) else a

/-- First loop of normalise_angle, run to completion. -/
def normDown (a : ℚ) : ℚ := normDownF (downSteps a) a

/-- Second loop of normalise_angle, run to completion. -/
def normUp (a : ℚ) : ℚ := normUpF (upSteps a) a

/-- normalise_angle from aocs_control.py: subtract 360 while above 180, then
add 360 while below -180. -/
def normalise_angle (a : ℚ) : ℚ := normUp (normDown a)

/-- PID proportional gain, constants["PID"]["Kp"]. -/
def Kp : ℚ := 12 / 10

/-- PID integral gain, constants["PID"]["Ki"]. -/
def Ki : ℚ := 5 / 100

/-- PID derivative gain, constants["PID"]["Kd"]. -/
def Kd : ℚ := 15 / 100

/-- Complementary filter coefficient, constants["CONTROL"]["filter_alpha"]. -/
def alpha : ℚ := 8 / 10

/-- constants["CONTROL"]["position_tolerance"]. -/
def position_tolerance : ℚ := 2

/-- constants["CONTROL"]["docking_tolerance"]. -/
def docking_tolerance : ℚ := 1

/-- constants["CONTROL"]["detumbling_deadzone"]. -/
def detumbling_deadzone : ℚ := 5

/-- Controller state threaded through one mode invocation: the attitude
estimate, filter state, PID state, the settle debounce counter and the last
motor command issued. -/
structure CtrlState where
  current_angle : ℚ
  filtered_gyro : ℚ
  error_sum : ℚ
  last_error : ℚ
  settled_count : ℕ
  motor : MotorCmd
deriving DecidableEq, Repr

/-- Latest vision observation slot (self.vision_data). -/
structure VisionData where
  angle_error : ℚ
  distance : ℚ
  detected : Bool
deriving DecidableEq, Repr

/-- Per-tick environment of a control loop: gyro z reading, the cooperative
cancellation flag (is_moving cleared externally), an unexpected exception
raised during the tick, and the vision slot together with its age
(time.time() - last_vision_update) as seen at that tick. -/
structure Env where
  gyro : ℕ → ℚ
  cancel : ℕ → Bool
  fault : ℕ → Bool
  vis : ℕ → VisionData
  age : ℕ → ℚ

/-- How a mode's while loop was exited: normal completion (condition or
break), cooperative cancellation, or an exception caught by the mode's
except clause. -/
inductive ExitKind
  | normal
  | cancelled
  | faulted
deriving DecidableEq, Repr

/-- Actuation mapping of move_to_angle: dead-zone of 5 (the
detumbling_deadzone constant) collapses to a full stop, otherwise direction
is the sign of the output and speed is min(|output|, max_speed). -/
def moveActuate (out maxs : ℚ) : MotorCmd :=
  if |out| < detumbling_deadzone then stop_motor
  else ⟨if 0 < out then 1 else -1, min |out| maxs⟩

/-- Actuation mapping of move_to_angle_vision_assisted: dead-zone of 3,
direction is the sign of the output, speed is min(|output|, max_speed)
halved with a floor of 15 when the final error is within 5 degrees. -/
def visionActuate (out maxs err : ℚ) : MotorCmd :=
  if |out| < 3 then stop_motor
  else
    let sp := min |out| maxs
    let sp2 := if |err| < 5 then max (sp * (1 / 2)) 15 else sp
    ⟨if 0 < out then 1 else -1, sp2⟩

/-- Vision fusion step of move_to_angle_vision_assisted: when the marker is
detected and the observation is younger than 0.5 s, blend the vision angle
error with the gyro-derived error using weight min(1, |gyro_error| / 10);
otherwise keep the gyro error. -/
def fuse (gyroErr : ℚ) (v : VisionData) (age : ℚ) : ℚ :=
  if v.detected ∧ age < 1 / 2 then
    let w := min 1 (|gyroErr| / 10)
    w * v.angle_error + (1 - w) * gyroErr
  else gyroErr

/-- One iteration of the move_to_angle while body (lines 398-440 of
aocs_control.py): update the filtered rate and integrated angle, compute the
wrapped error, run the settle debounce (break when within tolerance for 10
consecutive ticks), then the clamped PID law and the actuation mapping.
Returns the new state and whether the loop broke (target reached). -/
def move_tick (target maxs : ℚ) (s : CtrlState) (g : ℚ) : CtrlState × Bool :=
  let dt : ℚ := 2 / 100
  let filt := alpha * s.filtered_gyro + (1 - alpha) * g
  let ang := normalise_angle (s.current_angle + filt * dt)
  let err := normalise_angle (target - ang)
  if |err| < position_tolerance ∧ 10 ≤ s.settled_count + 1 then
    ({ s with current_angle := ang, filtered_gyro := filt,
              settled_count := s.settled_count + 1 }, true)
  else
    let sc := if |err| < position_tolerance then s.settled_count + 1 else 0
    let sum := max (-50) (min 50 (s.error_sum + err * dt))
    let rate := if 0 < dt then (err - s.last_error) / dt else 0
    let out := Kp * err + Ki * sum + Kd * rate
    ({ current_angle := ang, filtered_gyro := filt, error_sum := sum,
       last_error := err, settled_count := sc,
       motor := moveActuate out maxs }, false)

/-- One iteration of the move_to_angle_vision_assisted while body (lines
510-558): like move_tick but the gyro error passes through vision fusion,
tolerance is docking_tolerance with a 25-tick debounce, the integral clamp
is 30, the dead-zone is 3 and the near-target taper applies. -/
def vision_tick (target maxs : ℚ) (s : CtrlState) (g : ℚ) (v : VisionData)
    (age : ℚ) : CtrlState × Bool :=
  let dt : ℚ := 2 / 100
  let filt := alpha * s.filtered_gyro + (1 - alpha) * g
  let ang := normalise_angle (s.current_angle + filt * dt)
  let gyroErr := normalise_angle (target - ang)
  let err := fuse gyroErr v age
  if |err| < docking_tolerance ∧ 25 ≤ s.settled_count + 1 then
    ({ s with current_angle := ang, filtered_gyro := filt,
              settled_count := s.settled_count + 1 }, true)
  else
    let sc := if |err| < docking_tolerance then s.settled_count + 1 else 0
    let sum := max (-30) (min 30 (s.error_sum + err * dt))
    let rate := if 0 < dt then (err - s.last_error) / dt else 0
    let out := Kp * err + Ki * sum + Kd * rate
    ({ current_angle := ang, filtered_gyro := filt, error_sum := sum,
       last_error := err, settled_count := sc,
       motor := visionActuate out maxs err }, false)

/-- Total-rotation progress measure of rotate_360_degrees (lines 355-358):
the absolute difference between the current and the start angle, folded by
360 - x when it exceeds 180. -/
def rotProgress (cur start : ℚ) : ℚ :=
  let d := |cur - start|
  if 180 < d then 360 - d else d

/-- One iteration of the rotate_360_degrees while body (lines 350-374):
update the filtered rate and angle, recompute total_rotation from the start
angle, and command the motor with the rate-tracking proportional speed
max(25, min(80, 40 + 2 * (target_rate - |filtered_rate|))). -/
def rot_tick (targetGyro : ℚ) (dir : Int) (start : ℚ) (s : CtrlState)
    (g : ℚ) : CtrlState × ℚ :=
  let dt : ℚ := 2 / 100
  let filt := alpha * s.filtered_gyro + (1 - alpha) * g
  let ang := normalise_angle (s.current_angle + filt * dt)
  let tot := rotProgress ang start
  let gyroError := targetGyro - |filt|
  let speed := max 25 (min 80 (40 + gyroError * 2))
  ({ s with current_angle := ang, filtered_gyro := filt,
            motor := ⟨dir, speed⟩ }, tot)

/-- One iteration of the detumbling_control while body in aocs_control.py
(lines 646-692): filter the raw rate, regulate it to zero through the
clamped PID law (dt = 0.01, clamp 50), dead-zone 5, speed capped at 100. -/
def detumble_tick (s : CtrlState) (g : ℚ) : CtrlState :=
  let dt : ℚ := 1 / 100
  let filt := alpha * s.filtered_gyro + (1 - alpha) * g
  let err := 0 - filt
  let sum := max (-50) (min 50 (s.error_sum + err * dt))
  let rate := if 0 < dt then (err - s.last_error) / dt else 0
  let out := Kp * err + Ki * sum + Kd * rate
  let m := if |out| < detumbling_deadzone then stop_motor
           else ⟨if 0 < out then 1 else -1, min |out| 100⟩
  { s with filtered_gyro := filt, error_sum := sum, last_error := err,
           motor := m }

/-- Fuel-indexed run of the move_to_angle while loop: per iteration, check
the cooperative is_moving flag, let a mid-tick exception exit through the
except clause, otherwise run the tick and stop on its break. -/
def move_loop (target maxs : ℚ) (env : Env) :
    ℕ → ℕ → CtrlState → CtrlState × Option ExitKind
  | 0, _, s => (s, none)
  | fuel + 1, i, s =>
    if env.cancel i then (s, some ExitKind.cancelled)
    else if env.fault i then (s, some ExitKind.faulted)
    else
      let r := move_tick target maxs s (env.gyro i)
      if r.2 then (r.1, some ExitKind.normal)
      else move_loop target maxs env fuel (i + 1) r.1

/-- Entry code of move_to_angle / move_to_angle_vision_assisted: PID state
and settle counter are reset to zero (lines 388-391 / 500-503). -/
def move_entry (s : CtrlState) : CtrlState :=
  { s with error_sum := 0, last_error := 0, settled_count := 0 }

/-- move_to_angle (lines 383-446): normalise the target, reset the PID
state, run the loop, and on every exit path stop the motor in the finally
clause. `none` means the loop has not terminated within the fuel. -/
def move_to_angle (target maxs : ℚ) (env : Env) (fuel : ℕ)
    (s0 : CtrlState) : Option CtrlState :=
  match move_loop (normalise_angle target) maxs env fuel 0 (move_entry s0) with
  | (s, some _) => some { s with motor := stop_motor }
  | (_, none) => none

/-- Fuel-indexed run of the move_to_angle_vision_assisted while loop. -/
def vision_loop (target maxs : ℚ) (env : Env) :
    ℕ → ℕ → CtrlState → CtrlState × Option ExitKind
  | 0, _, s => (s, none)
  | fuel + 1, i, s =>
    if env.cancel i then (s, some ExitKind.cancelled)
    else if env.fault i then (s, some ExitKind.faulted)
    else
      let r := vision_tick target maxs s (env.gyro i) (env.vis i) (env.age i)
      if r.2 then (r.1, some ExitKind.normal)
      else vision_loop target maxs env fuel (i + 1) r.1

/-- move_to_angle_vision_assisted (lines 495-564): normalise the target,
reset the PID state, run the loop, stop the motor in the finally clause. -/
def move_to_angle_vision_assisted (target maxs : ℚ) (env : Env) (fuel : ℕ)
    (s0 : CtrlState) : Option CtrlState :=
  match vision_loop (normalise_angle target) maxs env fuel 0 (move_entry s0) with
  | (s, some _) => some { s with motor := stop_motor }
  | (_, none) => none

/-- Fuel-indexed run of the rotate_360_degrees while loop: the condition
`total_rotation < 360 and is_moving` is checked at the top, a mid-tick
exception exits through the except clause, otherwise the tick runs and the
loop continues with the recomputed total_rotation. -/
def rot_loop (targetGyro : ℚ) (dir : Int) (start : ℚ) (env : Env) :
    ℕ → ℕ → CtrlState → ℚ → CtrlState × ℚ × Option ExitKind
  | 0, _, s, tot => (s, tot, none)
  | fuel + 1, i, s, tot =>
    if 360 ≤ tot then (s, tot, some ExitKind.normal)
    else if env.cancel i then (s, tot, some ExitKind.cancelled)
    else if env.fault i then (s, tot, some ExitKind.faulted)
    else
      let r := rot_tick targetGyro dir start s (env.gyro i)
      rot_loop targetGyro dir start env fuel (i + 1) r.1 r.2

/-- rotate_360_degrees (lines 335-381): direction from the sign of the
requested angular velocity, start angle recorded, total_rotation starts at
zero, and the motor is stopped in the finally clause on every exit path. -/
def rotate_360_degrees (omega : ℚ) (env : Env) (fuel : ℕ)
    (s0 : CtrlState) : Option CtrlState :=
  let dir : Int := if 0 < omega then 1 else -1
  match rot_loop |omega| dir s0.current_angle env fuel 0 s0 0 with
  | (s, _, some _) => some { s with motor := stop_motor }
  | (_, _, none) => none

/-- Fuel-indexed run of the detumbling_control while loop in
aocs_control.py: the stop condition is polled at the top of each iteration,
a mid-tick exception exits through the except clause, otherwise the tick
runs and the loop continues (it has no normal completion of its own). -/
def detumble_loop (env : Env) :
    ℕ → ℕ → CtrlState → CtrlState × Option ExitKind
  | 0, _, s => (s, none)
  | fuel + 1, i, s =>
    if env.cancel i then (s, some ExitKind.normal)
    else if env.fault i then (s, some ExitKind.faulted)
    else detumble_loop env fuel (i + 1) (detumble_tick s (env.gyro i))

/-- detumbling_control in aocs_control.py (lines 632-698): local PID and
filter state start at zero and the motor is stopped in the finally clause
on every exit path. -/
def detumbling_control (env : Env) (fuel : ℕ) (s0 : CtrlState) :
    Option CtrlState :=
  match detumble_loop env fuel 0
      { s0 with error_sum := 0, last_error := 0, filtered_gyro := 0 } with
  | (s, some _) => some { s with motor := stop_motor }
  | (_, none) => none

/-- Vision observation as seen by one real_time_docking supervisor
iteration: the detection flag, the age of the observation, and the reported
angle error and distance. -/
structure DockObs where
  detected : Bool
  age : ℚ
  angle_error : ℚ
  distance : ℚ
deriving DecidableEq, Repr

/-- Environment of the docking supervisor: cancellation and fault flags,
the vision observation read at each iteration, and the motor state left by
the nested move_to_angle_vision_assisted call of a correction (in the source
that nested call always ends with stop_motor; the environment is allowed to
be arbitrary, which only strengthens the theorems). -/
structure DockEnv where
  cancel : ℕ → Bool
  fault : ℕ → Bool
  obs : ℕ → DockObs
  innerMotor : ℕ → MotorCmd

/-- Docking supervisor state: the correction counter and the motor. -/
structure DockSt where
  count : ℕ
  motor : MotorCmd
deriving DecidableEq, Repr

/-- Fuel-indexed run of the real_time_docking while loop (lines 573-615):
the condition `is_docking and correction_count < max_corrections` is checked
at the top; an undetected or stale (older than 2 s) observation waits
without counting; success breaks when |angle_error| < docking_tolerance and
distance < 5; |angle_error| > docking_tolerance performs a correction and
increments the counter; otherwise the iteration only monitors distance. -/
def dock_loop (env : DockEnv) (maxCorrections : ℕ) :
    ℕ → ℕ → DockSt → DockSt × Option ExitKind
  | 0, _, st => (st, none)
  | fuel + 1, i, st =>
    if env.cancel i then (st, some ExitKind.cancelled)
    else if maxCorrections ≤ st.count then (st, some ExitKind.normal)
    else if env.fault i then (st, some ExitKind.faulted)
    else
      let o := env.obs i
      if o.detected = false then dock_loop env maxCorrections fuel (i + 1) st
      else if 2 < o.age then dock_loop env maxCorrections fuel (i + 1) st
      else if |o.angle_error| < docking_tolerance ∧ o.distance < 5 then
        (st, some ExitKind.normal)
      else if docking_tolerance < |o.angle_error| then
        dock_loop env maxCorrections fuel (i + 1) ⟨st.count + 1, env.innerMotor i⟩
      else dock_loop env maxCorrections fuel (i + 1) st

/-- real_time_docking (lines 566-628): the correction counter starts at
zero; the finally clause stops the motor and returns False exactly when
max_corrections was exhausted, True otherwise. `none` means the supervisor
loop has not terminated within the fuel. -/
def real_time_docking (env : DockEnv) (maxCorrections fuel : ℕ)
    (st0 : DockSt) : Option (Bool × DockSt) :=
  match dock_loop env maxCorrections fuel 0 { st0 with count := 0 } with
  | (st, some _) => some (decide (st.count < maxCorrections),
                          { st with motor := stop_motor })
  | (_, none) => none

/-- Predicate on a mode result: on every terminated run the motor is
stopped; a run that has not terminated claims nothing. -/
def motor_off : Option CtrlState → Prop
  | none => True
  | some s => s.motor = stop_motor

/-- Docking variant of motor_off. -/
def motor_off_dock : Option (Bool × DockSt) → Prop
  | none => True
  | some r => r.2.motor = stop_motor

/-- Sign-and-magnitude decode of a 16-bit register pair as done in
read_gyro_data: values above 32767 wrap to negative. -/
def toSigned (v : ℕ) : Int := if 32767 < v then (v : Int) - 65536 else (v : Int)

/-- Z-axis part of read_gyro_data (lines 156-176): on a successful bus read
of the two z bytes, decode, scale by 1/131 and subtract the current bias; on
any exception return the zero reading. The function never fails. -/
def read_gyro_z (raw : Except Unit (ℕ × ℕ)) (bias : ℚ) : ℚ :=
  match raw with
  | .ok (hi, lo) => ((toSigned (hi <<< 8 ||| lo) : Int) : ℚ) / 131 - bias
  | .error _ => 0

/-- Accumulation loop of calibrate_gyroscope (lines 232-239): sample i is
read for i = 0 .. n-1; a `some` reading adds its value to gyro_sum and
counts as valid, a `none` reading is skipped. -/
def calibScan (r : ℕ → Option ℚ) : ℕ → ℚ × ℕ
  | 0 => (0, 0)
  | n + 1 =>
    let acc := calibScan r n
    match r n with
    | some z => (acc.1 + z, acc.2 + 1)
    | none => acc

/-- calibrate_gyroscope (lines 224-247): success requires strictly more
than 80 percent valid samples, in which case the bias becomes the mean of
the valid readings; otherwise the bias is left unchanged and False is
returned. -/
def calibrate_gyroscope (r : ℕ → Option ℚ) (samples : ℕ) (oldBias : ℚ) :
    Bool × ℚ :=
  let acc := calibScan r samples
  if (samples : ℚ) * (8 / 10) < (acc.2 : ℚ) then (true, acc.1 / (acc.2 : ℚ))
  else (false, oldBias)

/-- Number of indices below n whose read is valid (returns `some`). -/
def validCount (r : ℕ → Option ℚ) (n : ℕ) : ℕ :=
  (List.range n).countP fun i => (r i).isSome

/-- Sum of the valid readings among the first n reads. -/
def sumValid (r : ℕ → Option ℚ) (n : ℕ) : ℚ :=
  ((List.range n).filterMap r).sum

/-- calibrate_gyroscope as actually invoked: every sample is produced by
read_gyro_data, which never returns None. -/
def calibrateFull (env : ℕ → Except Unit (ℕ × ℕ)) (samples : ℕ)
    (bias : ℚ) : Bool × ℚ :=
  calibrate_gyroscope (fun i => some (read_gyro_z (env i) bias)) samples bias

end AOCS

namespace DetumbleModule

/-- PID, filter and timing constants of the standalone
detumbling_control.py: Kp = 2.0, Ki = 0.1, Kd = 0.5, alpha = 0.7,
dt = 0.01. State is the module-global triple
(error_sum, last_error, filtered_gyro_z). -/
def tick (s : ℚ × ℚ × ℚ) (g : ℚ) : (ℚ × ℚ × ℚ) × ℚ × AOCS.MotorCmd :=
  let sum := s.1
  let last := s.2.1
  let filt := s.2.2
  let filt2 := (7 / 10) * filt + (3 / 10) * g
  let e := 0 - filt2
  let sum2 := max (-50) (min 50 (sum + e * (1 / 100)))
  let rate := if (0 : ℚ) < 1 / 100 then (e - last) / (1 / 100) else 0
  let out := 2 * e + (1 / 10) * sum2 + (1 / 2) * rate
  let m := if |out| < 5 then AOCS.stop_motor
           else ⟨if 0 < out then 1 else -1, min |out| 100⟩
  ((sum2, e, filt2), out, m)

/-- One invocation of detumbling_control() in detumbling_control.py over a
finite gyro-reading trace: the module-global PID and filter state is taken
as it stands (the function performs no reset on entry) and the control
outputs of the successive ticks are collected. -/
def detumbling_control (s : ℚ × ℚ × ℚ) : List ℚ → (ℚ × ℚ × ℚ) × List ℚ
  | [] => (s, [])
  | g :: gs =>
    let r := tick s g
    let rest := detumbling_control r.1 gs
    (rest.1, r.2.1 :: rest.2)

end DetumbleModule

namespace AOCS

/-- Initial controller state after __init__: angle, filter and PID state
zero, motor stopped. -/
def initSt : CtrlState := ⟨0, 0, 0, 0, 0, stop_motor⟩

/-- Benign environment for witnesses: constant 50 deg/s gyro reading, no
cancellation, no faults, no detection. -/
def quietEnv : Env := ⟨fun _ => 50, fun _ => false, fun _ => false,
  fun _ => ⟨0, 0, false⟩, fun _ => 0⟩

/-- Vision observation used by the fusion boundary counterexample: marker
detected, zero reported angle error. -/
def visCE : VisionData := ⟨0, 0, true⟩

/-- Docking environment whose feed is always a fresh detection with angle
error 5 and distance 10: never aligned, always correctable. -/
def dockEnvFar : DockEnv := ⟨fun _ => false, fun _ => false,
  fun _ => ⟨true, 0, 5, 10⟩, fun _ => stop_motor⟩

/-- Docking environment whose feed is always a fresh detection with angle
error exactly equal to docking_tolerance and distance 10: never within
tolerance, yet never strictly beyond it. -/
def dockEnvBoundary : DockEnv := ⟨fun _ => false, fun _ => false,
  fun _ => ⟨true, 0, 1, 10⟩, fun _ => stop_motor⟩

/-- Read oracle with exactly 4 valid samples out of 5 requested. -/
def readsFourOfFive : ℕ → Option ℚ := fun i => if i < 4 then some 1 else none

/-- Bus environment where every read raises. -/
def busAllFail : ℕ → Except Unit (ℕ × ℕ) := fun _ => .error ()

end AOCS

namespace AOCS

theorem le_of_downSteps_eq_zero {a : ℚ} (h : downSteps a = 0) : a ≤ 180 := by
  by_contra hlt
  push_neg at hlt
  have h1 : (0 : ℚ) < (a - 180) / 360 := div_pos (by linarith) (by norm_num)
  have h2 : 0 < Int.ceil ((a - 180) / 360) := Int.ceil_pos.mpr h1
  unfold downSteps at h
  omega

theorem downSteps_shift {a : ℚ} (h : 180 < a) :
    downSteps (a - 360) + 1 = downSteps a := by
  have harg : (a - 360 - 180) / 360 = (a - 180) / 360 - 1 := by ring
  have hceil : Int.ceil ((a - 360 - 180) / 360)
      = Int.ceil ((a - 180) / 360) - 1 := by
    rw [harg, Int.ceil_sub_one]
  have hpos : 0 < Int.ceil ((a - 180) / 360) :=
    Int.ceil_pos.mpr (div_pos (by linarith) (by norm_num))
  unfold downSteps
  omega

theorem normDownF_le : ∀ (n : ℕ) (a : ℚ), downSteps a ≤ n → normDownF n a ≤ 180 := by
  intro n
  induction n with
  | zero =>
    intro a h
    exact le_of_downSteps_eq_zero (Nat.le_zero.mp h)
  | succ n ih =>
    intro a h
    show (if 180 < a then normDownF n (a - 360) else a) ≤ 180
    split
    · next h1 =>
      apply ih
      have := downSteps_shift h1
      omega
    · next h1 => exact le_of_not_lt h1

theorem normDownF_cong : ∀ (n : ℕ) (a : ℚ), ∃ k : ℤ, normDownF n a = a - 360 * k := by
  intro n
  induction n with
  | zero => intro a; exact ⟨0, by simp [normDownF]⟩
  | succ n ih =>
    intro a
    show (∃ k : ℤ, (if 180 < a then normDownF n (a - 360) else a) = a - 360 * k)
    split
    · obtain ⟨k, hk⟩ := ih (a - 360)
      exact ⟨k + 1, by rw [hk]; push_cast; ring⟩
    · exact ⟨0, by ring⟩

theorem ge_of_upSteps_eq_zero {a : ℚ} (h : upSteps a = 0) : -180 ≤ a := by
  by_contra hlt
  push_neg at hlt
  have h1 : (0 : ℚ) < (-180 - a) / 360 := div_pos (by linarith) (by norm_num)
  have h2 : 0 < Int.ceil ((-180 - a) / 360) := Int.ceil_pos.mpr h1
  unfold upSteps at h
  omega

theorem upSteps_shift {a : ℚ} (h : a < -180) :
    upSteps (a + 360) + 1 = upSteps a := by
  have harg : (-180 - (a + 360)) / 360 = (-180 - a) / 360 - 1 := by ring
  have hceil : Int.ceil ((-180 - (a + 360)) / 360)
      = Int.ceil ((-180 - a) / 360) - 1 := by
    rw [harg, Int.ceil_sub_one]
  have hpos : 0 < Int.ceil ((-180 - a) / 360) :=
    Int.ceil_pos.mpr (div_pos (by linarith) (by norm_num))
  unfold upSteps
  omega

theorem normUpF_ge : ∀ (n : ℕ) (a : ℚ), upSteps a ≤ n → -180 ≤ normUpF n a := by
  intro n
  induction n with
  | zero =>
    intro a h
    exact ge_of_upSteps_eq_zero (Nat.le_zero.mp h)
  | succ n ih =>
    intro a h
    show -180 ≤ (if a < -180 then normUpF n (a + 360) else a)
    split
    · next h1 =>
      apply ih
      have := upSteps_shift h1
      omega
    · next h1 => exact le_of_not_lt h1

theorem normUpF_le : ∀ (n : ℕ) (a : ℚ), a ≤ 180 → normUpF n a ≤ 180 := by
  intro n
  induction n with
  | zero => intro a h; exact h
  | succ n ih =>
    intro a h
    show (if a < -180 then normUpF n (a + 360) else a) ≤ 180
    split
    · next h1 => exact ih (a + 360) (by linarith)
    · exact h

theorem normUpF_cong : ∀ (n : ℕ) (a : ℚ), ∃ k : ℤ, normUpF n a = a + 360 * k := by
  intro n
  induction n with
  | zero => intro a; exact ⟨0, by simp [normUpF]⟩
  | succ n ih =>
    intro a
    show (∃ k : ℤ, (if a < -180 then normUpF n (a + 360) else a) = a + 360 * k)
    split
    · obtain ⟨k, hk⟩ := ih (a + 360)
      exact ⟨k + 1, by rw [hk]; push_cast; ring⟩
    · exact ⟨0, by ring⟩

theorem normDown_le (a : ℚ) : normDown a ≤ 180 := normDownF_le _ a le_rfl

theorem normalise_mem (a : ℚ) :
    -180 ≤ normalise_angle a ∧ normalise_angle a ≤ 180 :=
  ⟨normUpF_ge _ _ le_rfl, normUpF_le _ _ (normDown_le a)⟩

theorem normalise_cong (a : ℚ) : ∃ k : ℤ, normalise_angle a = a + 360 * k := by
  obtain ⟨k1, h1⟩ := normDownF_cong (downSteps a) a
  obtain ⟨k2, h2⟩ := normUpF_cong (upSteps (normDown a)) (normDown a)
  refine ⟨k2 - k1, ?_⟩
  have hd : normDown a = a - 360 * k1 := h1
  unfold normalise_angle normUp
  rw [h2, hd]
  push_cast
  ring

/-- C2 (amended): for every rational angle a, normalise_angle a lies in the
closed interval [-180, 180] and is congruent to a modulo 360. The source
loops stop as soon as the angle is at most 180 and at least -180, so the
lower endpoint -180 is attainable and the half-open interval (-180, 180]
claimed by the spec is wrong at that single point. -/
theorem C2_normalise_range_and_congruence : ∀ a : ℚ,
    (-180 ≤ normalise_angle a ∧ normalise_angle a ≤ 180)
    ∧ ∃ k : ℤ, normalise_angle a = a + 360 * k :=
  fun a => ⟨normalise_mem a, normalise_cong a⟩

/-- C2 counterexample: normalise_angle (-180) evaluates to -180, which is
not in the claimed half-open interval (-180, 180]. -/
theorem C2_counterexample_at_minus180 :
    normalise_angle (-180) = -180 ∧ ¬ (-180 < normalise_angle (-180)) := by
  have h0 : downSteps (-180 : ℚ) = 0 := by
    have h : ((-180 : ℚ) - 180) / 360 = ((-1 : ℤ) : ℚ) := by norm_num
    rw [downSteps, h, Int.ceil_intCast]
    rfl
  have h1 : normDown (-180 : ℚ) = -180 := by
    rw [normDown, h0]
    rfl
  have h2 : upSteps (-180 : ℚ) = 0 := by
    have h3 : (-180 - (-180 : ℚ)) / 360 = ((0 : ℤ) : ℚ) := by norm_num
    rw [upSteps, h3, Int.ceil_intCast]
    rfl
  have key : normalise_angle (-180 : ℚ) = -180 := by
    rw [normalise_angle, h1, normUp, h2]
    rfl
  exact ⟨key, by rw [key]; exact lt_irrefl _⟩

/-- C5: the standalone detumbling_control() of detumbling_control.py keeps
its PID and filter state in module globals and performs no reset on entry,
so a second invocation with the identical gyro trace [10] produces a
different control-output trajectory than the first; the claimed reset at
entry of every PID-driven mode does not hold for this detumbling variant. -/
theorem C5_module_detumbling_carries_state :
    (DetumbleModule.detumbling_control
      (DetumbleModule.detumbling_control (0, 0, 0) [10]).1 [10]).2
    ≠ (DetumbleModule.detumbling_control (0, 0, 0) [10]).2 := by
  norm_num [DetumbleModule.detumbling_control, DetumbleModule.tick,
    min_def, max_def]

end AOCS

namespace AOCS

theorem clamp_abs_le (L x : ℚ) (hL : 0 ≤ L) : |max (-L) (min L x)| ≤ L := by
  rw [abs_le]
  exact ⟨le_max_left _ _, max_le (by linarith) (min_le_left _ _)⟩

theorem move_tick_sum (t m : ℚ) (s : CtrlState) (g : ℚ) :
    (move_tick t m s g).1.error_sum = s.error_sum
    ∨ |(move_tick t m s g).1.error_sum| ≤ 50 := by
  simp only [move_tick]
  split
  · left; rfl
  · right
    exact clamp_abs_le 50 _ (by norm_num)

theorem vision_tick_sum (t m : ℚ) (s : CtrlState) (g : ℚ) (v : VisionData)
    (age : ℚ) :
    (vision_tick t m s g v age).1.error_sum = s.error_sum
    ∨ |(vision_tick t m s g v age).1.error_sum| ≤ 30 := by
  simp only [vision_tick]
  split
  · left; rfl
  · right
    exact clamp_abs_le 30 _ (by norm_num)

theorem detumble_tick_sum (s : CtrlState) (g : ℚ) :
    |(detumble_tick s g).error_sum| ≤ 50 := by
  simp only [detumble_tick]
  exact clamp_abs_le 50 _ (by norm_num)

theorem move_loop_sum (t m : ℚ) (env : Env) :
    ∀ (fuel i : ℕ) (s : CtrlState), |s.error_sum| ≤ 50 →
    |(move_loop t m env fuel i s).1.error_sum| ≤ 50 := by
  intro fuel
  induction fuel with
  | zero => intro i s h; exact h
  | succ fuel ih =>
    intro i s h
    rw [move_loop]
    split
    · exact h
    split
    · exact h
    have hb : |(move_tick t m s (env.gyro i)).1.error_sum| ≤ 50 := by
      rcases move_tick_sum t m s (env.gyro i) with h1 | h1
      · rw [h1]; exact h
      · exact h1
    rcases hbk : move_tick t m s (env.gyro i) with ⟨s', brk⟩
    rw [hbk] at hb
    cases brk
    · exact ih (i + 1) s' hb
    · exact hb

theorem vision_loop_sum (t m : ℚ) (env : Env) :
    ∀ (fuel i : ℕ) (s : CtrlState), |s.error_sum| ≤ 30 →
    |(vision_loop t m env fuel i s).1.error_sum| ≤ 30 := by
  intro fuel
  induction fuel with
  | zero => intro i s h; exact h
  | succ fuel ih =>
    intro i s h
    rw [vision_loop]
    split
    · exact h
    split
    · exact h
    have hb : |(vision_tick t m s (env.gyro i) (env.vis i) (env.age i)).1.error_sum| ≤ 30 := by
      rcases vision_tick_sum t m s (env.gyro i) (env.vis i) (env.age i) with h1 | h1
      · rw [h1]; exact h
      · exact h1
    rcases hbk : vision_tick t m s (env.gyro i) (env.vis i) (env.age i) with ⟨s', brk⟩
    rw [hbk] at hb
    cases brk
    · exact ih (i + 1) s' hb
    · exact hb

/-- C4: the clamped integral term never exceeds the mode's anti-windup
bound. Per tick: a move_to_angle tick either leaves error_sum unchanged
(the settled break path) or leaves it with absolute value at most 50; a
vision-assisted tick likewise with bound 30; a detumbling tick always
leaves it at most 50. Per run: starting from the entry reset, the
move_to_angle loop keeps |error_sum| at most 50 and the vision-assisted
loop at most 30 for every input sequence and any number of ticks. -/
theorem C4_anti_windup_bounds :
    (∀ (t m : ℚ) (s : CtrlState) (g : ℚ),
      (move_tick t m s g).1.error_sum = s.error_sum
      ∨ |(move_tick t m s g).1.error_sum| ≤ 50)
    ∧ (∀ (t m : ℚ) (s : CtrlState) (g : ℚ) (v : VisionData) (age : ℚ),
      (vision_tick t m s g v age).1.error_sum = s.error_sum
      ∨ |(vision_tick t m s g v age).1.error_sum| ≤ 30)
    ∧ (∀ (s : CtrlState) (g : ℚ), |(detumble_tick s g).error_sum| ≤ 50)
    ∧ (∀ (t m : ℚ) (env : Env) (fuel : ℕ) (s0 : CtrlState),
      |(move_loop t m env fuel 0 (move_entry s0)).1.error_sum| ≤ 50)
    ∧ (∀ (t m : ℚ) (env : Env) (fuel : ℕ) (s0 : CtrlState),
      |(vision_loop t m env fuel 0 (move_entry s0)).1.error_sum| ≤ 30) := by
  refine ⟨move_tick_sum, vision_tick_sum, detumble_tick_sum, ?_, ?_⟩
  · intro t m env fuel s0
    apply move_loop_sum
    show |(0 : ℚ)| ≤ 50
    norm_num
  · intro t m env fuel s0
    apply vision_loop_sum
    show |(0 : ℚ)| ≤ 30
    norm_num

/-- C3 (amended): the vision fusion step returns the gyro error unchanged
when the marker is undetected or the observation's age is at least 0.5 s;
when the marker is detected and the age is strictly below 0.5 s it returns
w * vision_error + (1 - w) * gyro_error with w = min(1, |gyro_error| / 10).
The source guard is a strict `age < 0.5`, so at age exactly 0.5 s the
observation is already treated as stale, not fused as the spec's wording
implies. -/
theorem C3_fuse_characterisation : ∀ (e : ℚ) (v : VisionData) (age : ℚ),
    ((v.detected = false ∨ (1 : ℚ) / 2 ≤ age) → fuse e v age = e)
    ∧ (v.detected = true → age < 1 / 2 →
      fuse e v age = min 1 (|e| / 10) * v.angle_error
        + (1 - min 1 (|e| / 10)) * e) := by
  intro e v age
  constructor
  · intro h
    rw [fuse, if_neg]
    rintro ⟨hd, hlt⟩
    rcases h with h | h
    · rw [h] at hd
      exact Bool.false_ne_true hd
    · exact absurd hlt (not_lt.mpr h)
  · intro hd hlt
    rw [fuse, if_pos ⟨hd, hlt⟩]

/-- C3 witness: an undetected observation leaves the error unchanged, and a
fresh detected observation is blended with the confidence weight. -/
theorem C3_fuse_witness :
    fuse 7 ⟨3, 0, false⟩ 0 = 7
    ∧ fuse 20 ⟨3, 0, true⟩ 0
      = min 1 (|(20 : ℚ)| / 10) * 3 + (1 - min 1 (|(20 : ℚ)| / 10)) * 20 := by
  constructor
  · exact (C3_fuse_characterisation 7 ⟨3, 0, false⟩ 0).1 (Or.inl rfl)
  · exact (C3_fuse_characterisation 20 ⟨3, 0, true⟩ 0).2 rfl (by norm_num)

/-- C3 counterexample: at age exactly 0.5 s the claim's fused value (here 0,
since the weight is 1) differs from what the code returns (the gyro error
20, because `0.5 < 0.5` is false and the vision branch is not taken). -/
theorem C3_counterexample_age_boundary :
    fuse 20 visCE (1 / 2) ≠ min 1 (|(20 : ℚ)| / 10) * visCE.angle_error
      + (1 - min 1 (|(20 : ℚ)| / 10)) * 20 := by
  norm_num [fuse, visCE, min_def]

/-- C6 (amended): below the mode's dead-zone the actuation issues a full
stop; otherwise direction is the sign of the PID output and speed is
min(|output|, max_speed), which never exceeds max_speed; the vision-assisted
near-target taper replaces the speed by max(speed / 2, 15) when
|error| < 5, and that taper respects the max_speed cap only when
max_speed is at least 15 (its fixed floor can exceed a smaller cap). -/
theorem C6_actuation_mapping : ∀ (o m e : ℚ),
    (|o| < 5 → moveActuate o m = stop_motor)
    ∧ (5 ≤ |o| → moveActuate o m = ⟨if 0 < o then 1 else -1, min |o| m⟩
        ∧ (moveActuate o m).speed ≤ m)
    ∧ (|o| < 3 → visionActuate o m e = stop_motor)
    ∧ (3 ≤ |o| → 5 ≤ |e| →
        visionActuate o m e = ⟨if 0 < o then 1 else -1, min |o| m⟩
        ∧ (visionActuate o m e).speed ≤ m)
    ∧ (3 ≤ |o| → |e| < 5 →
        (visionActuate o m e).speed = max (min |o| m * (1 / 2)) 15
        ∧ (15 ≤ m → (visionActuate o m e).speed ≤ m)) := by
  intro o m e
  have hdz : detumbling_deadzone = (5 : ℚ) := rfl
  refine ⟨?_, ?_, ?_, ?_, ?_⟩
  · intro h
    rw [moveActuate, hdz, if_pos h]
  · intro h
    have hn : ¬ (|o| < detumbling_deadzone) := by rw [hdz]; exact not_lt.mpr h
    constructor
    · rw [moveActuate, if_neg hn]
    · show (moveActuate o m).speed ≤ m
      rw [moveActuate, if_neg hn]
      exact min_le_right _ _
  · intro h
    rw [visionActuate, if_pos h]
  · intro ho he
    have hn : ¬ (|o| < 3) := not_lt.mpr ho
    have hne : ¬ (|e| < 5) := not_lt.mpr he
    constructor
    · simp only [visionActuate, if_neg hn, if_neg hne]
    · show (visionActuate o m e).speed ≤ m
      simp only [visionActuate, if_neg hn, if_neg hne]
      exact min_le_right _ _
  · intro ho he
    have hn : ¬ (|o| < 3) := not_lt.mpr ho
    constructor
    · simp only [visionActuate, if_neg hn, if_pos he]
    · intro hm
      show (visionActuate o m e).speed ≤ m
      simp only [visionActuate, if_neg hn, if_pos he]
      have h1 : min |o| m ≤ m := min_le_right _ _
      have h2 : min |o| m * (1 / 2) ≤ m := by nlinarith
      exact max_le h2 hm

/-- C6 witness: with max_speed 50 a move command and with max_speed 40 a
tapered vision command both stay within the caller's cap. -/
theorem C6_actuation_witness :
    (moveActuate 10 50).speed ≤ 50 ∧ (visionActuate 10 40 0).speed ≤ 40 := by
  constructor
  · exact ((C6_actuation_mapping 10 50 0).2.1 (by norm_num)).2
  · exact ((C6_actuation_mapping 10 40 0).2.2.2.2 (by norm_num) (by norm_num)).2
      (by norm_num)

/-- C6 counterexample: with max_speed 10, a vision-assisted near-target tick
with output 30 and error 0 commands speed max(min(30,10)/2, 15) = 15, which
exceeds the caller's max_speed of 10 - the claimed universal
speed <= max_speed bound fails below the 15 percent taper floor. -/
theorem C6_counterexample_taper_exceeds_cap :
    ¬ ((visionActuate 30 10 0).speed ≤ 10) := by
  norm_num [visionActuate, min_def, max_def]

/-- C1: every termination path of every control mode ends with the motor
stopped: whenever move_to_angle, move_to_angle_vision_assisted,
rotate_360_degrees, detumbling_control or real_time_docking terminates
(normally, by cooperative cancellation, or through an exception caught at
the mode boundary), the finally clause has issued direction 0 and speed 0;
a run that has not yet terminated claims nothing. -/
theorem C1_all_modes_stop_motor :
    ∀ (t m omega : ℚ) (env : Env) (denv : DockEnv) (fuel n : ℕ)
      (s0 : CtrlState) (d0 : DockSt),
    motor_off (move_to_angle t m env fuel s0)
    ∧ motor_off (move_to_angle_vision_assisted t m env fuel s0)
    ∧ motor_off (rotate_360_degrees omega env fuel s0)
    ∧ motor_off (detumbling_control env fuel s0)
    ∧ motor_off_dock (real_time_docking denv n fuel d0) := by
  intro t m omega env denv fuel n s0 d0
  refine ⟨?_, ?_, ?_, ?_, ?_⟩
  · rw [move_to_angle]
    rcases move_loop (normalise_angle t) m env fuel 0 (move_entry s0) with ⟨s, _ | k⟩
    · exact trivial
    · rfl
  · rw [move_to_angle_vision_assisted]
    rcases vision_loop (normalise_angle t) m env fuel 0 (move_entry s0) with ⟨s, _ | k⟩
    · exact trivial
    · rfl
  · rw [rotate_360_degrees]
    rcases rot_loop |omega| (if 0 < omega then 1 else -1) s0.current_angle
        env fuel 0 s0 0 with ⟨s, tot, _ | k⟩
    · exact trivial
    · rfl
  · rw [detumbling_control]
    rcases detumble_loop env fuel 0
        { s0 with error_sum := 0, last_error := 0, filtered_gyro := 0 } with ⟨s, _ | k⟩
    · exact trivial
    · rfl
  · rw [real_time_docking]
    rcases dock_loop denv n fuel 0 { d0 with count := 0 } with ⟨s, _ | k⟩
    · exact trivial
    · rfl

end AOCS

namespace AOCS

theorem rotProgress_le (c st : ℚ) (hc1 : -180 ≤ c) (hc2 : c ≤ 180)
    (hs1 : -180 ≤ st) (hs2 : st ≤ 180) : rotProgress c st ≤ 180 := by
  have habs : |c - st| ≤ 360 := by
    rw [abs_le]
    constructor <;> linarith
  simp only [rotProgress]
  split
  · next h => linarith
  · next h => exact le_of_not_lt h

theorem rot_tick_snd (tg : ℚ) (dir : Int) (start : ℚ) (s : CtrlState)
    (g : ℚ) :
    (rot_tick tg dir start s g).2
    = rotProgress
        (normalise_angle (s.current_angle
          + (alpha * s.filtered_gyro + (1 - alpha) * g) * (2 / 100))) start := rfl

theorem rot_loop_none (tg : ℚ) (dir : Int) (start : ℚ) (env : Env)
    (hs1 : -180 ≤ start) (hs2 : start ≤ 180)
    (hc : ∀ i, env.cancel i = false) (hf : ∀ i, env.fault i = false) :
    ∀ (fuel i : ℕ) (s : CtrlState) (tot : ℚ), tot < 360 →
    (rot_loop tg dir start env fuel i s tot).2.2 = none := by
  intro fuel
  induction fuel with
  | zero => intro i s tot ht; rfl
  | succ fuel ih =>
    intro i s tot ht
    have h1 : ¬ (env.cancel i = true) := by rw [hc i]; exact Bool.false_ne_true
    have h2 : ¬ (env.fault i = true) := by rw [hf i]; exact Bool.false_ne_true
    rw [rot_loop, if_neg (not_le.mpr ht), if_neg h1, if_neg h2]
    apply ih
    rw [rot_tick_snd]
    have hm := normalise_mem (s.current_angle
      + (alpha * s.filtered_gyro + (1 - alpha) * env.gyro i) * (2 / 100))
    have := rotProgress_le
      (normalise_angle (s.current_angle
        + (alpha * s.filtered_gyro + (1 - alpha) * env.gyro i) * (2 / 100)))
      start hm.1 hm.2 hs1 hs2
    linarith

/-- C7: rotate_360_degrees does not accumulate per-tick angle deltas; it
recomputes total_rotation each tick as the wrap-corrected absolute
displacement from the start angle, which never exceeds 180 degrees when
both angles lie in [-180, 180]. Consequently the loop guard
total_rotation < 360 never becomes false and, absent cancellation or an
exception, the rotation loop never terminates - contradicting the claimed
(and intended) accumulate-to-360 behaviour. -/
theorem C7_rotation_progress_capped :
    (∀ c st : ℚ, -180 ≤ c → c ≤ 180 → -180 ≤ st → st ≤ 180 →
      rotProgress c st ≤ 180)
    ∧ (∀ (omega : ℚ) (env : Env) (fuel : ℕ) (s0 : CtrlState),
      -180 ≤ s0.current_angle → s0.current_angle ≤ 180 →
      (∀ i, env.cancel i = false) → (∀ i, env.fault i = false) →
      rotate_360_degrees omega env fuel s0 = none) := by
  constructor
  · exact rotProgress_le
  · intro omega env fuel s0 h1 h2 hc hf
    have h := rot_loop_none |omega| (if 0 < omega then 1 else -1)
      s0.current_angle env h1 h2 hc hf fuel 0 s0 0 (by norm_num)
    rw [rotate_360_degrees]
    rcases hr : rot_loop |omega| (if 0 < omega then 1 else -1)
        s0.current_angle env fuel 0 s0 0 with ⟨s, tot, ek⟩
    rw [hr] at h
    have hek : ek = none := h
    subst hek
    rfl

/-- C7 witness: with a benign environment (constant gyro, no cancellation,
no faults) and the initial zero state, three loop iterations make no
terminating progress, and a concrete in-range displacement is capped. -/
theorem C7_rotation_witness :
    rotate_360_degrees 30 quietEnv 3 initSt = none
    ∧ rotProgress 100 0 ≤ 180 := by
  constructor
  · exact C7_rotation_progress_capped.2 30 quietEnv 3 initSt
      (by norm_num [initSt]) (by norm_num [initSt])
      (fun i => rfl) (fun i => rfl)
  · exact C7_rotation_progress_capped.1 100 0 (by norm_num) (by norm_num)
      (by norm_num) (by norm_num)

end AOCS

namespace AOCS

theorem dock_loop_exhausts (env : DockEnv) (N : ℕ)
    (hc : ∀ i, env.cancel i = false) (hf : ∀ i, env.fault i = false)
    (hd : ∀ i, (env.obs i).detected = true) (ha : ∀ i, (env.obs i).age ≤ 2)
    (he : ∀ i, docking_tolerance < |(env.obs i).angle_error|) :
    ∀ (k i : ℕ) (st : DockSt), st.count + k = N →
    (dock_loop env N (k + 1) i st).2 = some ExitKind.normal
    ∧ (dock_loop env N (k + 1) i st).1.count = N := by
  intro k
  induction k with
  | zero =>
    intro i st hst
    have h1 : ¬ (env.cancel i = true) := by rw [hc i]; exact Bool.false_ne_true
    have h2 : N ≤ st.count := by omega
    simp only [dock_loop, if_neg h1, if_pos h2]
    exact ⟨trivial, by omega⟩
  | succ k ih =>
    intro i st hst
    have h1 : ¬ (env.cancel i = true) := by rw [hc i]; exact Bool.false_ne_true
    have h2 : ¬ (N ≤ st.count) := by omega
    have h3 : ¬ (env.fault i = true) := by rw [hf i]; exact Bool.false_ne_true
    have h4 : ¬ ((env.obs i).detected = false) := by
      simp [hd i]
    have h5 : ¬ ((2 : ℚ) < (env.obs i).age) := not_lt.mpr (ha i)
    have h6 : ¬ (|(env.obs i).angle_error| < docking_tolerance
        ∧ (env.obs i).distance < 5) := by
      rintro ⟨hx, _⟩
      exact absurd hx (not_lt.mpr (le_of_lt (he i)))
    simp only [dock_loop, if_neg h1, if_neg h2, if_neg h3, if_neg h4,
      if_neg h5, if_neg h6, if_pos (he i)]
    exact ih (i + 1) ⟨st.count + 1, env.innerMotor i⟩ (by simp; omega)

/-- C8 (amended): for every max_corrections N at least 1, when the vision
feed at every supervisor read is a fresh detection whose angle error
strictly exceeds the docking tolerance, real_time_docking performs exactly
N corrections, then terminates with a failure result and a stopped motor.
The source counts a correction only under the strict test
|angle_error| > tolerance, so the hypothesis must be strict: a feed whose
error sits exactly at the tolerance is never within tolerance yet is
neither a success nor a correction, and the loop makes no progress. -/
theorem C8_docking_exhausts_corrections :
    ∀ (N : ℕ) (env : DockEnv) (st0 : DockSt),
    1 ≤ N →
    (∀ i, env.cancel i = false) → (∀ i, env.fault i = false) →
    (∀ i, (env.obs i).detected = true) → (∀ i, (env.obs i).age ≤ 2) →
    (∀ i, docking_tolerance < |(env.obs i).angle_error|) →
    real_time_docking env N (N + 1) st0 = some (false, ⟨N, stop_motor⟩) := by
  intro N env st0 hN hc hf hd ha he
  have h := dock_loop_exhausts env N hc hf hd ha he N 0
    { st0 with count := 0 } (by simp)
  rw [real_time_docking]
  rcases hr : dock_loop env N (N + 1) 0 { st0 with count := 0 } with ⟨st, ek⟩
  rw [hr] at h
  obtain ⟨h1, h2⟩ := h
  have hek : ek = some ExitKind.normal := h1
  have hcnt : st.count = N := h2
  subst hek
  show some (decide (st.count < N), { st with motor := stop_motor })
    = some (false, ⟨N, stop_motor⟩)
  rw [hcnt]
  simp [Nat.lt_irrefl]

/-- C8 witness: with a persistent fresh detection at angle error 5 (strictly
beyond the tolerance 1) and distance 10, one allowed correction is consumed
and docking fails with the motor stopped. -/
theorem C8_docking_witness :
    real_time_docking dockEnvFar 1 2 ⟨0, stop_motor⟩
      = some (false, ⟨1, stop_motor⟩) :=
  C8_docking_exhausts_corrections 1 dockEnvFar ⟨0, stop_motor⟩ le_rfl
    (fun _ => rfl) (fun _ => rfl) (fun _ => rfl)
    (fun _ => by norm_num [dockEnvFar])
    (fun _ => by norm_num [dockEnvFar, docking_tolerance])

theorem dock_boundary_stalls : ∀ (fuel i : ℕ) (st : DockSt), st.count = 0 →
    dock_loop dockEnvBoundary 1 fuel i st = (st, none) := by
  intro fuel
  induction fuel with
  | zero => intro i st h; rfl
  | succ fuel ih =>
    intro i st h
    have hcan : ¬ (dockEnvBoundary.cancel i = true) := by
      simp [dockEnvBoundary]
    have hcnt : ¬ (1 ≤ st.count) := by omega
    have hflt : ¬ (dockEnvBoundary.fault i = true) := by
      simp [dockEnvBoundary]
    have hdet : ¬ ((dockEnvBoundary.obs i).detected = false) := by
      simp [dockEnvBoundary]
    have hage : ¬ ((2 : ℚ) < (dockEnvBoundary.obs i).age) := by
      norm_num [dockEnvBoundary]
    have hsuc : ¬ (|(dockEnvBoundary.obs i).angle_error| < docking_tolerance
        ∧ (dockEnvBoundary.obs i).distance < 5) := by
      norm_num [dockEnvBoundary, docking_tolerance]
    have hcor : ¬ (docking_tolerance < |(dockEnvBoundary.obs i).angle_error|) := by
      norm_num [dockEnvBoundary, docking_tolerance]
    simp only [dock_loop, if_neg hcan, if_neg hcnt, if_neg hflt, if_neg hdet,
      if_neg hage, if_neg hsuc, if_neg hcor]
    exact ih (i + 1) st h

/-- C8 counterexample: a vision feed whose angle error is always exactly the
docking tolerance (1.0) with distance 10 never comes within tolerance, yet
real_time_docking with max_corrections 1 performs no correction at all and
has not terminated after 10 supervisor iterations - the claimed
terminate-after-exactly-N-corrections behaviour fails at this feed. -/
theorem C8_counterexample_boundary_feed :
    real_time_docking dockEnvBoundary 1 10 ⟨0, stop_motor⟩ = none := by
  have h := dock_boundary_stalls 10 0 { (⟨0, stop_motor⟩ : DockSt) with count := 0 } rfl
  rw [real_time_docking, h]

end AOCS

namespace AOCS

theorem calibScan_eq (r : ℕ → Option ℚ) :
    ∀ n : ℕ, calibScan r n = (sumValid r n, validCount r n) := by
  intro n
  induction n with
  | zero => simp [calibScan, sumValid, validCount]
  | succ n ih =>
    simp only [calibScan, ih]
    rcases hr : r n with _ | z
    · simp [sumValid, validCount, List.range_succ, hr]
    · simp [sumValid, validCount, List.range_succ, hr]

/-- C9 (amended): calibrate_gyroscope reports success exactly when the
number of valid samples strictly exceeds 80 percent of the requested
samples (the source test is `valid_samples > samples * 0.8`, so exactly
80 percent valid is a failure, not the success the spec's "at least 80
percent" implies); on success the bias becomes the mean of the valid
samples' z readings, on failure the bias is left unchanged and the
non-fatal code False is returned. -/
theorem C9_calibration_characterisation :
    ∀ (r : ℕ → Option ℚ) (n : ℕ) (oldBias : ℚ),
    calibrate_gyroscope r n oldBias
    = (decide ((n : ℚ) * (8 / 10) < (validCount r n : ℚ)),
       if (n : ℚ) * (8 / 10) < (validCount r n : ℚ)
       then sumValid r n / (validCount r n : ℚ) else oldBias) := by
  intro r n old
  simp only [calibrate_gyroscope, calibScan_eq]
  split
  · next h => simp [h]
  · next h => simp [h]

/-- C9 counterexample: with 4 valid samples out of 5 requested - exactly 80
percent, which satisfies the claim's "at least 80 percent" - the code's
strict test 4 > 5 * 0.8 fails and calibration reports failure. -/
theorem C9_counterexample_exact_80_percent :
    (calibrate_gyroscope readsFourOfFive 5 0).1 = false
    ∧ validCount readsFourOfFive 5 = 4
    ∧ (5 : ℚ) * (8 / 10) ≤ ((4 : ℕ) : ℚ) := by
  have hv : validCount readsFourOfFive 5 = 4 := by decide
  refine ⟨?_, hv, by norm_num⟩
  simp only [calibrate_gyroscope, calibScan_eq, hv]
  norm_num

/-- C10: as composed in the source, calibrate_gyroscope can never take its
failure branch: read_gyro_data returns a zero-valued reading (never None)
on any bus exception, so every sample counts as valid, the success test
samples > samples * 0.8 holds for every samples at least 1, and a failed
read contributes the reading 0 to the bias mean. -/
theorem C10_calibration_never_fails :
    (∀ (env : ℕ → Except Unit (ℕ × ℕ)) (n : ℕ) (bias : ℚ), 1 ≤ n →
      (calibrateFull env n bias).1 = true
      ∧ validCount (fun i => some (read_gyro_z (env i) bias)) n = n)
    ∧ (∀ bias : ℚ, read_gyro_z (.error ()) bias = 0) := by
  constructor
  · intro env n bias hn
    have hv : validCount (fun i => some (read_gyro_z (env i) bias)) n = n := by
      unfold validCount
      calc ((List.range n).countP fun i =>
              (some (read_gyro_z (env i) bias)).isSome)
          = (List.range n).length :=
            List.countP_eq_length.mpr (fun a _ => rfl)
        _ = n := List.length_range n
    have hcond : (n : ℚ) * (8 / 10) < ((n : ℕ) : ℚ) := by
      have h1 : (1 : ℚ) ≤ (n : ℚ) := by exact_mod_cast hn
      nlinarith
    refine ⟨?_, hv⟩
    simp only [calibrateFull, calibrate_gyroscope, calibScan_eq, hv,
      if_pos hcond]
  · intro bias
    rfl

/-- C10 witness: with three requested samples and a bus that always raises,
calibration still succeeds and all three zero-substituted samples count as
valid. -/
theorem C10_calibration_witness :
    (calibrateFull busAllFail 3 0).1 = true
    ∧ validCount (fun i => some (read_gyro_z (busAllFail i) 0)) 3 = 3 :=
  C10_calibration_never_fails.1 busAllFail 3 0 (by norm_num)

end AOCS
